import Mathlib

/-!
Verification of the TomatOS conversational tool-orchestration engine.

This file gives a shallow embedding, in Lean 4, of the parts of the
TomatOS_general code base that the specification's testable properties
talk about:

* `bot/ai_chat.py` — `ChatMessage`, `ChatSession.add_message` (history cap
  and truncation), `AIChat.create_session`, `AIChat.export_session`,
  `AIChat.import_session`, `AIChat._chat_complete` / `_handle_tool_calls`
  (the bounded tool-call loop), `AIChat._execute_tool`;
* `bot/tools.py` — `Tools.execute_tool` (registry lookup, quota gating,
  usage accounting, exception behaviour);
* `bot/api.py` — `check_quota`, `usage_update`, `get_usage`, `tool_config`;
* `message.py` — `TomatOS_Msghandler.find_and_execute` (prefix + alias
  command matching);
* `bot_app.py` — `TomatOS_bot.generate_session_id`.

Python dictionaries keyed by strings are modelled as association lists,
Python exceptions as `Except`, `datetime` values as abstract `Nat`
timestamps (ISO round-tripping is exact), and Python's truthiness tests on
optional strings/lists (`if self.name:`) as explicit emptiness checks.
-/

namespace TomatOS

/-! ## Data model: messages and sessions (`bot/ai_chat.py`) -/

/-- One tool-call request carried by an assistant message
(`bot/ai_chat.py`, dict with keys `id`, `type`, `function.name`,
`function.arguments`). -/
structure ToolCall where
  id : String
  type : String
  funcName : String
  funcArguments : String
deriving DecidableEq, Repr

/-- `ChatMessage` from `bot/ai_chat.py`: role, content and the three
optional fields. -/
structure ChatMessage where
  role : String
  content : String
  name : Option String := none
  tool_calls : Option (List ToolCall) := none
  tool_call_id : Option String := none
deriving DecidableEq, Repr

/-- The slice of `ModelConfig` (`bot/api.py`) that the session-level
claims use. -/
structure ModelConfig where
  model_name : String
  tool_usable : Bool := true
deriving DecidableEq, Repr

/-- `ChatSession` from `bot/ai_chat.py`.  `created_at` / `updated_at` are
abstract timestamps. -/
structure ChatSession where
  session_id : String
  messages : List ChatMessage := []
  model_config : Option ModelConfig := none
  max_history : Nat := 100
  created_at : Nat := 0
  updated_at : Nat := 0
deriving DecidableEq, Repr

/-- Python list slicing `xs[i:]` with a possibly negative start index:
for `i < 0` the start is `max 0 (len + i)`, otherwise `min i len`. -/
def pySliceFrom (i : Int) (xs : List ChatMessage) : List ChatMessage :=
  if i < 0 then xs.drop (xs.length - min xs.length i.natAbs)
  else xs.drop i.toNat

/-- The last `n` elements of a list (all of it when `n ≥ length`).
Used to state what truncation keeps. -/
def lastN (n : Nat) (xs : List ChatMessage) : List ChatMessage :=
  xs.drop (xs.length - n)

/-- Is this a `system`-role message? -/
def isSystem (m : ChatMessage) : Bool :=
  m.role == "system"

/-- `ChatSession.add_message` (`bot/ai_chat.py` lines 70-81): append the
message, update `updated_at`, and if the history now exceeds
`max_history`, replace it by
`system_messages + self.messages[-max_history + len(system_messages):]`. -/
def addMessage (now : Nat) (m : ChatMessage) (s : ChatSession) : ChatSession :=
  if (s.messages ++ [m]).length > s.max_history then
    { s with
      messages :=
        (s.messages ++ [m]).filter isSystem ++
          pySliceFrom
            ((((s.messages ++ [m]).filter isSystem).length : Int) -
              (s.max_history : Int))
            (s.messages ++ [m])
      updated_at := now }
  else
    { s with messages := s.messages ++ [m], updated_at := now }

/-! ## Session store: create / export / import (`bot/ai_chat.py`) -/

/-- The in-memory session store `AIChat.sessions`, an association list
from session id to session. -/
abbrev SessionStore := List (String × ChatSession)

/-- Dictionary lookup on the store. -/
def SessionStore.get (store : SessionStore) (sid : String) : Option ChatSession :=
  (store.find? (fun p => p.1 == sid)).map (fun p => p.2)

/-- Dictionary assignment `self.sessions[session_id] = session`. -/
def SessionStore.set (store : SessionStore) (sid : String) (s : ChatSession) :
    SessionStore :=
  match store with
  | [] => [(sid, s)]
  | (k, v) :: rest =>
    if k == sid then (sid, s) :: rest else (k, v) :: SessionStore.set rest sid s

/-- `AIChat.create_session` (`bot/ai_chat.py` lines 192-249).  If the id
already exists only a warning is logged; a fresh `ChatSession` is built,
the system message is appended (the caller-supplied prompt when non-empty,
otherwise the prompt built by the `PromptManager`, passed here as
`builtPrompt`), the model config is attached, and the store entry is
overwritten. -/
def createSession (store : SessionStore) (sid : String)
    (system_prompt builtPrompt : String) (model : Option ModelConfig)
    (now : Nat) : SessionStore :=
  let prompt := if system_prompt == "" then builtPrompt else system_prompt
  let session : ChatSession :=
    { session_id := sid, created_at := now, updated_at := now }
  let session := addMessage now { role := "system", content := prompt } session
  let session := { session with model_config := model }
  store.set sid session

/-- A serialized message as produced by `ChatMessage.to_dict`
(`bot/ai_chat.py` lines 44-53): `role` and `content` are always present;
`name`, `tool_calls` and `tool_call_id` are present only when truthy (a
`none` field here stands for an absent dictionary key). -/
structure SerMessage where
  role : String
  content : String
  name : Option String
  tool_calls : Option (List ToolCall)
  tool_call_id : Option String
deriving DecidableEq, Repr

/-- `ChatMessage.to_dict`: Python's `if self.name:` drops both `None` and
the empty string; `if self.tool_calls:` drops both `None` and `[]`. -/
def toDict (m : ChatMessage) : SerMessage :=
  { role := m.role
    content := m.content
    name := if m.name = none ∨ m.name = some "" then none else m.name
    tool_calls :=
      if m.tool_calls = none ∨ m.tool_calls = some [] then none else m.tool_calls
    tool_call_id :=
      if m.tool_call_id = none ∨ m.tool_call_id = some "" then none
      else m.tool_call_id }

/-- Reconstruction of a `ChatMessage` from a serialized dict as done by
`AIChat.import_session` (`msg_data.get("role", "")` etc.). -/
def fromDict (d : SerMessage) : ChatMessage :=
  { role := d.role
    content := d.content
    name := d.name
    tool_calls := d.tool_calls
    tool_call_id := d.tool_call_id }

/-- An exported session snapshot (`AIChat.export_session`,
`bot/ai_chat.py` lines 701-714). -/
structure Snapshot where
  session_id : String
  model : Option String
  messages : List SerMessage
  created_at : Nat
  updated_at : Nat
  message_count : Nat
deriving DecidableEq, Repr

/-- `AIChat.export_session` for an existing session. -/
def exportSession (s : ChatSession) : Snapshot :=
  { session_id := s.session_id
    model := s.model_config.map (fun c => c.model_name)
    messages := s.messages.map toDict
    created_at := s.created_at
    updated_at := s.updated_at
    message_count := s.messages.length }

/-- `AIChat.import_session` (`bot/ai_chat.py` lines 716-755): fails
(returns `False`, here `none`) on a falsy session id; otherwise builds a
fresh `ChatSession` (so `model_config` is left at its default `None`),
replays every message through `add_message`, then restores the two
timestamps.  The snapshot's `model` and `message_count` fields are never
read. -/
def importSession (now : Nat) (d : Snapshot) : Option ChatSession :=
  if d.session_id == "" then none
  else
    let base : ChatSession :=
      { session_id := d.session_id, created_at := now, updated_at := now }
    let s := d.messages.foldl (fun s m => addMessage now (fromDict m) s) base
    some { s with created_at := d.created_at, updated_at := d.updated_at }

/-! ## Quota ledger and tool registry (`bot/api.py`, `bot/tools.py`) -/

/-- The numeric entries of one provider's `tool_config` record
(`bot/api.py`): key → configured limit. -/
abbrev ProviderConfig := List (String × Nat)

/-- `tool_config`: provider tag → numeric configuration entries.
Non-numeric entries (API keys) play no role in quota checking and are
omitted. -/
abbrev ToolConfig := List (String × ProviderConfig)

/-- Association-list lookup for string-keyed dictionaries. -/
def alistGet {α : Type} (l : List (String × α)) (k : String) : Option α :=
  (l.find? (fun p => p.1 == k)).map (fun p => p.2)

/-- The `tool_config` dictionary shipped in `bot/api.py` (its numeric
entries). -/
def tool_config : ToolConfig :=
  [("serp", [("rpmonth", 250), ("usage", 0)]),
   ("aliyun", [("translate_tpmonth", 1000000), ("translate_qpm", 5000), ("usage", 0)])]

/-- The persisted usage ledger `limit_usage.json`: (provider, counter
key) → usage count.  An absent file / entry reads as 0. -/
abbrev Ledger := List ((String × String) × Nat)

/-- `api.get_usage`: `usage_data.get(api, {}).get(usage_name, 0)`. -/
def get_usage (led : Ledger) (apiName usageName : String) : Nat :=
  ((led.find? (fun p => p.1 == (apiName, usageName))).map (fun p => p.2)).getD 0

/-- `api.usage_update`: read-modify-write of one counter,
`usage_data[api][usage_name] += increment`. -/
def usage_update (led : Ledger) (apiName usageName : String) (increment : Nat) :
    Ledger :=
  match led with
  | [] => [((apiName, usageName), increment)]
  | (k, v) :: rest =>
    if k == (apiName, usageName) then (k, v + increment) :: rest
    else (k, v) :: usage_update rest apiName usageName increment

/-- `api.check_quota` (`bot/api.py` lines 535-562): an unconfigured
provider tag is unlimited (`return True`); a configured provider with no
entry under `limit_key` has limit `inf` (again allowed); otherwise the
call is allowed iff `current_usage + cost ≤ limit`. -/
def check_quota (cfg : ToolConfig) (led : Ledger)
    (api_name usage_key limit_key : String) (cost : Nat) : Bool :=
  match alistGet cfg api_name with
  | none => true
  | some providerCfg =>
    match alistGet providerCfg limit_key with
    | none => true
    | some limit => !(get_usage led api_name usage_key + cost > limit)

/-- A quota rule attached to a tool at registration
(`{"api": ..., "usage_key": ..., "limit_key": ..., "cost": ...}`).
`quota_info.get("limit_key")` may be absent (`none`). -/
structure QuotaRule where
  api : String
  usage_key : String := "usage"
  limit_key : Option String := none
  cost : Nat := 1
deriving DecidableEq, Repr

/-- Python truthiness of the optional `limit_key` string. -/
def limitKeyTruthy (lk : Option String) : Bool :=
  match lk with
  | none => false
  | some s => s != ""

/-- What a registered handler does when finally invoked: return a payload
or raise an exception with a message. -/
inductive HandlerOutcome where
  | success (payload : String)
  | raise (msg : String)
deriving DecidableEq, Repr

/-- The value `Tools.execute_tool` hands back when it returns normally:
either the handler's payload, or the `{"error": ...}` dictionary produced
on an insufficient quota. -/
inductive ToolResult where
  | payload (v : String)
  | errorDict (msg : String)
deriving DecidableEq, Repr

/-- The registry `Tools._tools` / `_tool_functions`, reduced to what
`execute_tool` consults: name → optional quota rule, with the handler
behaviour supplied separately. -/
abbrev ToolRegistry := List (String × Option QuotaRule)

deriving instance DecidableEq for Except

/-- Outcome of one `Tools.execute_tool` call: the returned value or the
propagated exception, the ledger afterwards, and whether the handler was
actually invoked. -/
structure ExecOutcome where
  result : Except String ToolResult
  ledger : Ledger
  invoked : Bool
deriving DecidableEq, Repr

/-- `Tools.execute_tool` (`bot/tools.py` lines 126-173).
An unregistered name raises `ValueError("工具 '<name>' 未注册")`.
If the tool has a quota rule with truthy `api` and `limit_key`, the quota
is checked *before* the handler runs; on insufficient quota the call
returns `{"error": ...}` without invoking the handler and without
touching the ledger.  Otherwise the handler runs: on success the counter
is incremented by `cost` (whenever `api` is truthy) and the payload
returned; a handler exception is re-raised with the ledger unchanged. -/
def executeTool (cfg : ToolConfig) (registry : ToolRegistry)
    (handlers : String → HandlerOutcome) (name : String) (led : Ledger) :
    ExecOutcome :=
  match alistGet registry name with
  | none =>
    { result := .error ("工具 '" ++ name ++ "' 未注册"), ledger := led
      invoked := false }
  | some quotaOpt =>
    let blocked :=
      match quotaOpt with
      | some q =>
        q.api != "" && limitKeyTruthy q.limit_key &&
          !(check_quota cfg led q.api q.usage_key (q.limit_key.getD "") q.cost)
      | none => false
    if blocked then
      let apiTag := (quotaOpt.map (fun q => q.api)).getD ""
      { result := .ok (.errorDict ("工具 '" ++ name ++ "' 配额不足 (API: " ++ apiTag ++ ")"))
        ledger := led, invoked := false }
    else
      match handlers name with
      | .raise msg => { result := .error msg, ledger := led, invoked := true }
      | .success v =>
        let led' :=
          match quotaOpt with
          | some q =>
            if q.api != "" then usage_update led q.api q.usage_key q.cost else led
          | none => led
        { result := .ok (.payload v), ledger := led', invoked := true }

/-- `AIChat._execute_tool` (`bot/ai_chat.py` lines 498-510): the engine's
wrapper around the registry; any exception is caught and turned into the
`{"error": str(e)}` result, so nothing propagates to the tool loop. -/
def aiExecuteTool (cfg : ToolConfig) (registry : ToolRegistry)
    (handlers : String → HandlerOutcome) (name : String) (led : Ledger) :
    ToolResult × Ledger :=
  let out := executeTool cfg registry handlers name led
  match out.result with
  | .ok r => (r, out.ledger)
  | .error e => (.errorDict e, out.ledger)

/-! ## The bounded tool-call loop (`bot/ai_chat.py`) -/

/-- A (parsed) provider completion as `_call_openai_api` returns it:
whether it carries tool calls, and its text content. -/
structure ProviderResponse where
  hasToolCalls : Bool
  content : String
deriving DecidableEq, Repr

/-- `AIChat.max_tool_iterations` (`bot/ai_chat.py` line 133). -/
def maxToolIterations : Nat := 50

/-- The fixed limit-reached reply (`bot/ai_chat.py` lines 582-583). -/
def limitMessage : String := "已达到最大工具调用次数，请简化您的问题。"

/-- The mutual recursion `_chat_complete` → `_handle_tool_calls` →
`_chat_complete`, projected onto provider-call counting.  `provider n` is
the `n`-th completion returned by `_call_openai_api`.  The code tracks
`tool_iteration` (starting at 0) against `max_tool_iterations`; here
`remaining = max_tool_iterations - tool_iteration`, so the guard
`iteration >= self.max_tool_iterations` in `_handle_tool_calls` is
`remaining = 0`.  Each invocation makes exactly one provider call, then —
if the response requests tools — either aborts with `limitMessage` or
recurses with `tool_iteration + 1`.  Result: (number of provider calls
made, final reply text). -/
def chatCompleteLoop (provider : Nat → ProviderResponse) :
    Nat → Nat → Nat × String
  | 0, callIdx =>
    let resp := provider callIdx
    if resp.hasToolCalls then (1, limitMessage) else (1, resp.content)
  | r + 1, callIdx =>
    let resp := provider callIdx
    if resp.hasToolCalls then
      let rest := chatCompleteLoop provider r (callIdx + 1)
      (rest.1 + 1, rest.2)
    else (1, resp.content)

/-- A whole `chat` turn, as entered from `AIChat.chat`: the first
`_chat_complete` runs with `tool_iteration` defaulted to 0, i.e.
`remaining = maxToolIterations`. -/
def chatToolLoop (provider : Nat → ProviderResponse) : Nat × String :=
  chatCompleteLoop provider maxToolIterations 0

/-! ## One completion turn and its failure handling (`bot/ai_chat.py`) -/

/-- The reply dictionary a `chat` turn produces (the fields the claims
mention). -/
structure ChatResult where
  success : Bool
  response : String
deriving DecidableEq, Repr

/-- The apologetic fallback text of `_chat_complete`
(`bot/ai_chat.py` lines 422-423). -/
def apologyMessage : String := "抱歉，聊天过程中出现了错误。"

/-- One non-streaming, tool-free `chat` turn (`AIChat.chat` →
`_chat_complete`): the user message is appended first; then the provider
transport is called.  A transport-level failure (`_call_openai_api`
catches the exception and falls through returning `None`, which makes
`_chat_complete` fail and take its `except` branch) yields the apology
with no assistant message appended.  A successful completion without
tool calls appends the assistant message and returns its content.
The tool-call branch is modelled separately by `chatCompleteLoop`. -/
def chatTurn (now : Nat) (s : ChatSession) (userText : String)
    (transport : Option String) : ChatSession × ChatResult :=
  let s1 := addMessage now { role := "user", content := userText } s
  match transport with
  | none => (s1, { success := false, response := apologyMessage })
  | some content =>
    (addMessage now { role := "assistant", content := content } s1,
     { success := true, response := content })

/-! ## Message router (`message.py`) -/

/-- `cmd_prefix` from `message.py` line 17 (one-character prefixes). -/
def cmdPrefixes : List (List Char) := [['/'], ['！'], ['!'], ['y']]

/-- The characters Python's regex `\s` matches on ASCII input. -/
def isWSChar (c : Char) : Bool :=
  c = ' ' || c = '\t' || c = '\n' || c = '\r' || c = Char.ofNat 11 || c = Char.ofNat 12

/-- A registered command: canonical name plus aliases.  Aliases are
regex patterns in the source; the claims only exercise literal (escape
free) patterns, which match like plain strings. -/
structure Command where
  cname : String
  aliases : List String
deriving DecidableEq, Repr

/-- Does the regex `^(?:prefix-alternation)alias(?:\s|$)` match `msg`?
(`find_and_execute`, `message.py` line 142). -/
def aliasFullMatch (aliasPat msg : List Char) : Bool :=
  cmdPrefixes.any (fun p =>
    p.isPrefixOf msg &&
      (let rest := msg.drop p.length
       aliasPat.isPrefixOf rest &&
         (match rest.drop aliasPat.length with
          | [] => true
          | c :: _ => isWSChar c)))

/-- `TomatOS_Msghandler.find_and_execute` (`message.py` lines 114-150):
if the message starts with a command prefix, scan registered commands in
order; for each, try the canonical name then each alias; the first full
match wins and the command's handler is invoked **with the whole message
string** as its argument.  Returns the matched command's name together
with the argument passed to the handler (`none` when nothing matches). -/
def findAndExecute (commands : List Command) (msg : String) :
    Option (String × String) :=
  if cmdPrefixes.any (fun p => p.isPrefixOf msg.data) then
    (commands.find? (fun c =>
        (c.cname :: c.aliases).any (fun a => aliasFullMatch a.data msg.data))).map
      (fun c => (c.cname, msg))
  else none

/-- The `help` command as registered in `bot_app.py` lines 141-144. -/
def helpCommand : Command :=
  { cname := "help", aliases := ["help", "帮助", "cmds", "命令"] }

/-! ## Session id derivation (`bot_app.py`) -/

/-- `TomatOS_bot.generate_session_id` (`bot_app.py` lines 115-139).
`group_id` defaults to `conv_id` when absent. -/
def generateSessionId (platform user_id conv_id : String) (is_group : Bool)
    (group_id : Option String) : String :=
  let gid := group_id.getD conv_id
  if is_group then platform ++ "/group/" ++ gid ++ "/" ++ user_id
  else platform ++ "/private/" ++ user_id ++ "/" ++ conv_id

/-- A string containing no `/` separator, the condition under which the
derived ids are collision-free. -/
def slashFree (s : String) : Prop := '/' ∉ s.data

instance (s : String) : Decidable (slashFree s) := by
  unfold slashFree; infer_instance

/-! ## Helper lemmas about `lastN` and `addMessage` -/

theorem lastN_of_length_le {n : Nat} {xs : List ChatMessage} (h : xs.length ≤ n) :
    lastN n xs = xs := by
  unfold lastN
  rw [Nat.sub_eq_zero_of_le h, List.drop_zero]

theorem lastN_length (n : Nat) (xs : List ChatMessage) :
    (lastN n xs).length = min n xs.length := by
  simp [lastN]
  omega

theorem lastN_append_of_le {n : Nat} {ys : List ChatMessage}
    (xs : List ChatMessage) (h : n ≤ ys.length) :
    lastN n (xs ++ ys) = lastN n ys := by
  unfold lastN
  have hlen : (xs ++ ys).length - n = xs.length + (ys.length - n) := by
    simp only [List.length_append]
    omega
  rw [hlen, List.drop_append]

theorem lastN_snoc (n : Nat) (xs : List ChatMessage) (m : ChatMessage) :
    lastN (n + 1) (xs ++ [m]) = lastN n xs ++ [m] := by
  unfold lastN
  rcases Nat.le_total n xs.length with h | h
  · have hlen : (xs ++ [m]).length - (n + 1) = xs.length - n := by
      simp only [List.length_append, List.length_cons, List.length_nil]
      omega
    rw [hlen, List.drop_append_of_le_length (by omega)]
  · have h1 : (xs ++ [m]).length - (n + 1) = 0 := by
      simp only [List.length_append, List.length_cons, List.length_nil]
      omega
    rw [h1, List.drop_zero, Nat.sub_eq_zero_of_le h, List.drop_zero]

theorem drop_one_lastN {k : Nat} {xs : List ChatMessage} (hk : 1 ≤ k)
    (hlen : k ≤ xs.length) :
    (lastN k xs).drop 1 = lastN (k - 1) xs := by
  unfold lastN
  rw [List.drop_drop]
  congr 1
  omega

theorem addMessage_messages_of_no_trunc {now : Nat} {m : ChatMessage}
    {s : ChatSession} (h : s.messages.length + 1 ≤ s.max_history) :
    addMessage now m s =
      { s with messages := s.messages ++ [m], updated_at := now } := by
  have hc : ¬ ((s.messages ++ [m]).length > s.max_history) := by
    simp only [List.length_append, List.length_cons, List.length_nil]
    omega
  unfold addMessage
  rw [if_neg hc]

/-- Replaying messages through `add_message` never truncates while the
total stays within the cap; only `messages` and `updated_at` change. -/
theorem foldl_addMessage_no_trunc (now : Nat) :
    ∀ (msgs : List ChatMessage) (s : ChatSession),
      s.messages.length + msgs.length ≤ s.max_history →
      (msgs.foldl (fun t m => addMessage now m t) s).messages
          = s.messages ++ msgs ∧
      (msgs.foldl (fun t m => addMessage now m t) s).max_history
          = s.max_history ∧
      (msgs.foldl (fun t m => addMessage now m t) s).session_id
          = s.session_id ∧
      (msgs.foldl (fun t m => addMessage now m t) s).model_config
          = s.model_config ∧
      (msgs.foldl (fun t m => addMessage now m t) s).created_at
          = s.created_at := by
  intro msgs
  induction msgs with
  | nil => intro s _; simp
  | cons m rest ih =>
    intro s h
    simp only [List.foldl_cons]
    rw [addMessage_messages_of_no_trunc (by simp at h; omega)]
    have ih' := ih { s with messages := s.messages ++ [m], updated_at := now }
      (by simp at h ⊢; omega)
    simpa using ih'

/-- A user message (only role and content populated), for concrete
scenarios. -/
def userMsg (txt : String) : ChatMessage :=
  { role := "user", content := txt }

/-- A system message, for concrete scenarios. -/
def systemMsg (txt : String) : ChatMessage :=
  { role := "system", content := txt }

/-- A session as it evolves under a whole sequence of `add_message`
calls, starting from a fresh session with history cap `cap`. -/
def runAppends (cap now : Nat) (ms : List ChatMessage) : ChatSession :=
  ms.foldl (fun t m => addMessage now m t)
    { session_id := "session", max_history := cap }

theorem lastN_nil (n : Nat) : lastN n [] = [] := by
  simp [lastN]

/-- Python's negative-start slice used by truncation is exactly `lastN`. -/
theorem pySliceFrom_neg_eq_lastN {S C : Nat} (xs : List ChatMessage) (h : S < C) :
    pySliceFrom ((S : Int) - (C : Int)) xs = lastN (C - S) xs := by
  unfold pySliceFrom lastN
  rw [if_pos (by omega)]
  congr 1
  have hab : ((S : Int) - (C : Int)).natAbs = C - S := by omega
  rw [hab]
  omega

/-- One truncating-or-not `add_message` step preserves the shape
"all system messages first, then the most recent `cap - S` non-system
messages", provided the system messages came first and `S < cap`. -/
theorem addMessage_shape_step {C now : Nat} {sysMsgs ns : List ChatMessage}
    {m : ChatMessage} {s : ChatSession}
    (hsys : ∀ x ∈ sysMsgs, isSystem x = true)
    (hns : ∀ x ∈ ns, isSystem x = false)
    (hm : isSystem m = false)
    (hS : sysMsgs.length < C)
    (hmax : s.max_history = C)
    (hmsgs : s.messages = sysMsgs ++ lastN (C - sysMsgs.length) ns) :
    (addMessage now m s).messages
        = sysMsgs ++ lastN (C - sysMsgs.length) (ns ++ [m]) ∧
    (addMessage now m s).max_history = C := by
  have hTlen : (lastN (C - sysMsgs.length) ns).length
      = min (C - sysMsgs.length) ns.length := lastN_length _ _
  have hfilterSys : sysMsgs.filter isSystem = sysMsgs :=
    List.filter_eq_self.mpr hsys
  have hfilterT : (lastN (C - sysMsgs.length) ns).filter isSystem = [] := by
    refine List.filter_eq_nil_iff.mpr ?_
    intro x hx
    have hxns : x ∈ ns := List.drop_subset _ _ hx
    simp [hns x hxns]
  have hfilterM : [m].filter isSystem = [] := by
    simp [hm]
  unfold addMessage
  rw [hmax, hmsgs]
  by_cases hbig :
      ((sysMsgs ++ lastN (C - sysMsgs.length) ns) ++ [m]).length > C
  · rw [if_pos hbig]
    refine ⟨?_, rfl⟩
    have hlenBig :
        sysMsgs.length + (lastN (C - sysMsgs.length) ns).length + 1 > C := by
      simpa using hbig
    have hTfull :
        (lastN (C - sysMsgs.length) ns).length = C - sysMsgs.length := by
      omega
    have hnsLong : C - sysMsgs.length ≤ ns.length := by
      omega
    have hfilterAll :
        ((sysMsgs ++ lastN (C - sysMsgs.length) ns) ++ [m]).filter isSystem
          = sysMsgs := by
      rw [List.filter_append, List.filter_append, hfilterSys, hfilterT, hfilterM]
      simp
    rw [hfilterAll, pySliceFrom_neg_eq_lastN _ hS]
    show sysMsgs ++ _ = _
    congr 1
    rw [List.append_assoc]
    rw [lastN_append_of_le sysMsgs (by
      simp only [List.length_append, List.length_cons, List.length_nil, hTfull]
      omega)]
    obtain ⟨j, hj⟩ : ∃ j, C - sysMsgs.length = j + 1 :=
      ⟨C - sysMsgs.length - 1, by omega⟩
    rw [hj, lastN_snoc, lastN_snoc]
    congr 1
    have hns1 : j + 1 ≤ ns.length := by omega
    have hstep : lastN j (lastN (j + 1) ns) = (lastN (j + 1) ns).drop 1 := by
      unfold lastN
      congr 1
      rw [List.length_drop]
      omega
    rw [hstep, drop_one_lastN (by omega) hns1]
    simp
  · rw [if_neg hbig]
    refine ⟨?_, rfl⟩
    have hlenSmall :
        sysMsgs.length + (lastN (C - sysMsgs.length) ns).length + 1 ≤ C := by
      have h' := hbig
      simp only [List.length_append, List.length_cons, List.length_nil] at h'
      omega
    have hnsShort : ns.length + 1 ≤ C - sysMsgs.length := by
      omega
    have hTns : lastN (C - sysMsgs.length) ns = ns :=
      lastN_of_length_le (by omega)
    have hTnsm : lastN (C - sysMsgs.length) (ns ++ [m]) = ns ++ [m] :=
      lastN_of_length_le (by
        simp only [List.length_append, List.length_cons, List.length_nil]
        omega)
    rw [hTns, hTnsm, List.append_assoc]

/-- Folding non-system appends preserves the truncation shape. -/
theorem foldl_addMessage_shape {C now : Nat} {sysMsgs : List ChatMessage}
    (hsys : ∀ x ∈ sysMsgs, isSystem x = true)
    (hS : sysMsgs.length < C) :
    ∀ (rest ns : List ChatMessage) (s : ChatSession),
      (∀ x ∈ rest, isSystem x = false) → (∀ x ∈ ns, isSystem x = false) →
      s.max_history = C →
      s.messages = sysMsgs ++ lastN (C - sysMsgs.length) ns →
      (rest.foldl (fun t m => addMessage now m t) s).messages
          = sysMsgs ++ lastN (C - sysMsgs.length) (ns ++ rest) ∧
      (rest.foldl (fun t m => addMessage now m t) s).max_history = C := by
  intro rest
  induction rest with
  | nil =>
    intro ns s _ _ hmax hmsgs
    simpa using ⟨hmsgs, hmax⟩
  | cons m rest' ih =>
    intro ns s hrest hns hmax hmsgs
    have hm : isSystem m = false := hrest m (by simp)
    have hstep :=
      @addMessage_shape_step C now sysMsgs ns m s hsys hns hm hS hmax hmsgs
    simp only [List.foldl_cons]
    have := ih (ns ++ [m]) (addMessage now m s)
      (fun x hx => hrest x (by simp [hx]))
      (fun x hx => by
        rcases List.mem_append.mp hx with h | h
        · exact hns x h
        · simp at h
          subst h
          exact hm)
      hstep.2 hstep.1
    simpa [List.append_assoc] using this

/-! ## C1: history cap invariant -/

/-- C1 as the specification states it, for a cap `C` and an arbitrary
append sequence `ms` (with `N` / `S` the numbers of non-system / system
messages appended): whenever the *last* append triggers truncation, the
session holds exactly `min N (C - S) + S` messages, every appended system
message is still present, and the non-system part of the history is the
`min N (C - S)` most recent appended non-system messages in order. -/
def historyCapClaim (C : Nat) (ms : List ChatMessage) : Prop :=
  (runAppends C 0 ms.dropLast).messages.length + 1 > C →
    ((runAppends C 0 ms).messages.length
        = min (ms.filter (fun m => !isSystem m)).length
            (C - (ms.filter isSystem).length)
          + (ms.filter isSystem).length ∧
     (∀ x ∈ ms, isSystem x = true → x ∈ (runAppends C 0 ms).messages) ∧
     (runAppends C 0 ms).messages.filter (fun m => !isSystem m)
        = lastN
            (min (ms.filter (fun m => !isSystem m)).length
              (C - (ms.filter isSystem).length))
            (ms.filter (fun m => !isSystem m)))

/-- C1, counterexample to the claim as stated: with cap 3, appending
three user messages and then a system message triggers truncation and
leaves the history `[system, u3, system]` — the system message is
duplicated and only one of the two most recent non-system messages
(`u2`, `u3`) survives, because `add_message` slices the last
`cap - S` messages of the *whole* history, not of the non-system
partition. -/
theorem history_cap_claim_counterexample :
    ¬ historyCapClaim 3 [userMsg "u1", userMsg "u2", userMsg "u3", systemMsg "s1"] := by
  unfold historyCapClaim
  decide

/-- C1 (amended): the history-cap invariant as claimed holds whenever the
`S < C` system messages are appended before all non-system messages (the
code's actual usage: `create_session` installs the system prompt first).
After any sequence of non-system appends the session is exactly the `S`
system messages followed by the `min N (C - S)` most recent non-system
messages in original order, hence it holds `min N (C - S) + S` messages
and every system message is present. -/
theorem history_cap_invariant (C now : Nat) (sysMsgs nonSys : List ChatMessage)
    (hsys : ∀ x ∈ sysMsgs, isSystem x = true)
    (hns : ∀ x ∈ nonSys, isSystem x = false)
    (hS : sysMsgs.length < C) :
    (runAppends C now (sysMsgs ++ nonSys)).messages
        = sysMsgs ++ lastN (C - sysMsgs.length) nonSys ∧
    (runAppends C now (sysMsgs ++ nonSys)).messages.length
        = min nonSys.length (C - sysMsgs.length) + sysMsgs.length ∧
    ∀ x ∈ sysMsgs, x ∈ (runAppends C now (sysMsgs ++ nonSys)).messages := by
  have hshape :
      (runAppends C now (sysMsgs ++ nonSys)).messages
        = sysMsgs ++ lastN (C - sysMsgs.length) nonSys := by
    unfold runAppends
    rw [List.foldl_append]
    have base := foldl_addMessage_no_trunc now sysMsgs
      { session_id := "session", max_history := C } (by simp; omega)
    have hshape' := @foldl_addMessage_shape C now sysMsgs hsys hS nonSys []
      (sysMsgs.foldl (fun t m => addMessage now m t)
        { session_id := "session", max_history := C })
      hns (by simp) base.2.1 (by rw [base.1]; simp [lastN_nil])
    simpa using hshape'.1
  refine ⟨hshape, ?_, ?_⟩
  · rw [hshape]
    rw [List.length_append, lastN_length]
    omega
  · intro x hx
    rw [hshape]
    exact List.mem_append_left _ hx

/-- C1 witness: cap 3, one system message then three user messages; the
amended invariant instantiates to the concrete history
`[system, u2, u3]`. -/
theorem history_cap_invariant_witness :
    (runAppends 3 0 ([systemMsg "s"] ++ [userMsg "u1", userMsg "u2", userMsg "u3"])).messages
      = [systemMsg "s", userMsg "u2", userMsg "u3"] := by
  have h := history_cap_invariant 3 0 [systemMsg "s"]
    [userMsg "u1", userMsg "u2", userMsg "u3"]
    (by decide) (by decide) (by decide)
  exact h.1.trans (by decide)

/-! ## C2: tool-loop termination -/

theorem chatCompleteLoop_all_tool_calls (provider : Nat → ProviderResponse)
    (h : ∀ n, (provider n).hasToolCalls = true) :
    ∀ r c : Nat, chatCompleteLoop provider r c = (r + 1, limitMessage) := by
  intro r
  induction r with
  | zero =>
    intro c
    simp [chatCompleteLoop, h c]
  | succ r ih =>
    intro c
    simp [chatCompleteLoop, h c, ih (c + 1)]

/-- C2 (confirmed): if every provider completion requests another tool
call, `chat` terminates after exactly `max_tool_iterations + 1` provider
calls (the default bound being 50) and returns the fixed limit-reached
message; no further model call is made once the bound is reached, and
the recursion `_chat_complete` → `_handle_tool_calls` is bounded. -/
theorem tool_loop_termination (provider : Nat → ProviderResponse)
    (h : ∀ n, (provider n).hasToolCalls = true) :
    chatToolLoop provider = (maxToolIterations + 1, limitMessage) ∧
    maxToolIterations = 50 :=
  ⟨chatCompleteLoop_all_tool_calls provider h maxToolIterations 0, rfl⟩

/-- C2 witness: a provider that always answers with a tool call makes
`chat` stop after 51 provider calls with the limit-reached message. -/
theorem tool_loop_termination_witness :
    chatToolLoop (fun _ => { hasToolCalls := true, content := "" })
      = (51, limitMessage) := by
  have h := tool_loop_termination (fun _ => { hasToolCalls := true, content := "" })
    (fun _ => rfl)
  simpa using h.1

/-! ## C3: quota enforcement -/

/-- A quota rule gating one tool at unit cost against limit key `lim` of
provider `a` (the shape of `{"api": ..., "cost": 1, "limit_key": ...}`
rules in `bot/tools.py`). -/
def unitQuotaRule : QuotaRule :=
  { api := "a", usage_key := "usage", limit_key := some "lim", cost := 1 }

/-- A registry holding one quota-gated tool named `tool`. -/
def quotaRegistry : ToolRegistry := [("tool", some unitQuotaRule)]

/-- A tool configuration giving provider `a` the limit `K` under `lim`. -/
def quotaConfig (K : Nat) : ToolConfig := [("a", [("lim", K)])]

/-- Handler behaviour for the quota scenario: succeed or raise,
according to `o`. -/
def quotaHandlers (o : Bool) : String → HandlerOutcome :=
  fun _ => if o then .success "ok" else .raise "handler failure"

/-- One quota-gated `execute_tool` call in the limit-`K` scenario. -/
def quotaStep (K : Nat) (o : Bool) (led : Ledger) : ExecOutcome :=
  executeTool (quotaConfig K) quotaRegistry (quotaHandlers o) "tool" led

/-- The ledger left by a sequence of quota-gated calls whose handler
outcomes are `outcomes`. -/
def runQuotaCalls (K : Nat) (outcomes : List Bool) (led : Ledger) : Ledger :=
  outcomes.foldl (fun l o => (quotaStep K o l).ledger) led

theorem get_usage_usage_update (led : Ledger) (a u : String) (c : Nat) :
    get_usage (usage_update led a u c) a u = get_usage led a u + c := by
  induction led with
  | nil => simp [usage_update, get_usage]
  | cons p rest ih =>
    obtain ⟨k, v⟩ := p
    cases hkk : k == (a, u) with
    | true => simp [usage_update, get_usage, hkk]
    | false =>
      simp [usage_update, get_usage, hkk]
      exact ih

theorem quotaStep_eq (K : Nat) (o : Bool) (led : Ledger) :
    quotaStep K o led =
      if get_usage led "a" "usage" + 1 > K then
        { result := .ok (.errorDict "工具 'tool' 配额不足 (API: a)")
          ledger := led, invoked := false }
      else if o then
        { result := .ok (.payload "ok")
          ledger := usage_update led "a" "usage" 1, invoked := true }
      else
        { result := .error "handler failure", ledger := led, invoked := true } := by
  unfold quotaStep executeTool
  simp only [quotaRegistry, quotaConfig, quotaHandlers, unitQuotaRule, alistGet,
    check_quota, limitKeyTruthy, List.find?]
  by_cases h : get_usage led "a" "usage" + 1 > K
  · simp [h]
  · rcases o with _ | _ <;> simp [h]

theorem runQuotaCalls_le (K : Nat) (outcomes : List Bool) :
    ∀ led : Ledger, get_usage led "a" "usage" ≤ K →
      get_usage (runQuotaCalls K outcomes led) "a" "usage" ≤ K := by
  induction outcomes with
  | nil =>
    intro led h
    simpa [runQuotaCalls] using h
  | cons o rest ih =>
    intro led h
    have hstep : get_usage (quotaStep K o led).ledger "a" "usage" ≤ K := by
      rw [quotaStep_eq]
      by_cases hb : get_usage led "a" "usage" + 1 > K
      · simpa [hb] using h
      · rcases o with _ | _
        · simpa [hb] using h
        · simp [hb, get_usage_usage_update]
          omega
    simp only [runQuotaCalls, List.foldl_cons]
    exact ih _ hstep

theorem runQuotaCalls_replicate (K : Nat) :
    ∀ (n : Nat) (led : Ledger) (u : Nat),
      get_usage led "a" "usage" = u → u ≤ K →
      get_usage (runQuotaCalls K (List.replicate n true) led) "a" "usage"
        = min (u + n) K := by
  intro n
  induction n with
  | zero =>
    intro led u hu hK
    simp [runQuotaCalls, hu]
    omega
  | succ n ih =>
    intro led u hu hK
    simp only [List.replicate_succ, runQuotaCalls, List.foldl_cons]
    by_cases hb : u + 1 > K
    · have hb' : get_usage led "a" "usage" + 1 > K := by omega
      have hled : (quotaStep K true led).ledger = led := by
        rw [quotaStep_eq]
        simp [hb']
      have h2 := ih led u hu hK
      simp only [runQuotaCalls] at h2
      rw [hled, h2]
      omega
    · have hb' : ¬(get_usage led "a" "usage" + 1 > K) := by omega
      have hled : (quotaStep K true led).ledger = usage_update led "a" "usage" 1 := by
        rw [quotaStep_eq]
        simp [hb']
      have hu' : get_usage (usage_update led "a" "usage" 1) "a" "usage" = u + 1 := by
        rw [get_usage_usage_update, hu]
      have h2 := ih (usage_update led "a" "usage" 1) (u + 1) hu' (by omega)
      simp only [runQuotaCalls] at h2
      rw [hled, h2]
      omega

/-- C3 (confirmed): for a tool gated by a unit-cost quota rule with
configured limit `K`: (1) when the counter has reached `K`, the next
call returns the insufficient-quota failure result with the handler not
invoked and the ledger untouched — the check happens before the handler;
(2) below the limit the handler is invoked and the counter grows by 1
exactly when the handler succeeds (a handler exception leaves the ledger
unchanged); (3) starting at or below `K` the counter never exceeds `K`;
(4) after `n` all-successful calls from a fresh ledger the counter is
`min n K`, so the `(K+1)`-th call is the first one rejected. -/
theorem quota_enforcement (K : Nat) (led : Ledger) (o : Bool)
    (outcomes : List Bool) (n : Nat) :
    (get_usage led "a" "usage" = K →
      quotaStep K o led
        = { result := .ok (.errorDict "工具 'tool' 配额不足 (API: a)")
            ledger := led, invoked := false }) ∧
    (get_usage led "a" "usage" + 1 ≤ K →
      (quotaStep K o led).invoked = true ∧
      get_usage (quotaStep K o led).ledger "a" "usage"
          = get_usage led "a" "usage" + (if o then 1 else 0) ∧
      (o = false → (quotaStep K o led).ledger = led)) ∧
    (get_usage led "a" "usage" ≤ K →
      get_usage (runQuotaCalls K outcomes led) "a" "usage" ≤ K) ∧
    get_usage (runQuotaCalls K (List.replicate n true) []) "a" "usage"
        = min n K := by
  refine ⟨?_, ?_, runQuotaCalls_le K outcomes led, ?_⟩
  · intro h
    rw [quotaStep_eq]
    simp [h]
  · intro h
    have hb : ¬(get_usage led "a" "usage" + 1 > K) := by omega
    rcases o with _ | _
    · rw [quotaStep_eq]
      simp [hb]
    · rw [quotaStep_eq]
      simp [hb, get_usage_usage_update]
  · have h := runQuotaCalls_replicate K n [] 0 (by simp [get_usage]) (Nat.zero_le K)
    simpa using h

/-- C3 witness: with limit 2, the third successful call saturates the
counter at 2 and a call at the saturated counter is rejected without the
handler running. -/
theorem quota_enforcement_witness :
    quotaStep 2 true [(("a", "usage"), 2)]
        = { result := .ok (.errorDict "工具 'tool' 配额不足 (API: a)")
            ledger := [(("a", "usage"), 2)], invoked := false } ∧
    (quotaStep 2 true []).invoked = true ∧
    get_usage (runQuotaCalls 2 [true, false, true] []) "a" "usage" ≤ 2 ∧
    get_usage (runQuotaCalls 2 (List.replicate 3 true) []) "a" "usage" = min 3 2 := by
  refine ⟨?_, ?_, ?_, ?_⟩
  · exact (quota_enforcement 2 [(("a", "usage"), 2)] true [] 0).1 (by decide)
  · exact ((quota_enforcement 2 [] true [] 0).2.1 (by decide)).1
  · exact (quota_enforcement 2 [] true [true, false, true] 0).2.2.1 (by decide)
  · exact (quota_enforcement 2 [] true [] 3).2.2.2

/-! ## C4: session id derivation -/

/-- Splitting at the first `/` is unambiguous when neither prefix
contains `/`. -/
theorem noSlash_append_cons_inj :
    ∀ {xs ys rest rest' : List Char}, '/' ∉ xs → '/' ∉ ys →
      xs ++ '/' :: rest = ys ++ '/' :: rest' → xs = ys ∧ rest = rest' := by
  intro xs
  induction xs with
  | nil =>
    intro ys rest rest' _ hy h
    cases ys with
    | nil => simpa using h
    | cons b ys' =>
      simp only [List.nil_append, List.cons_append, List.cons.injEq] at h
      exact absurd (h.1 ▸ List.mem_cons_self b ys') hy
  | cons a xs' ih =>
    intro ys rest rest' hx hy h
    cases ys with
    | nil =>
      simp only [List.cons_append, List.nil_append, List.cons.injEq] at h
      exact absurd (h.1 ▸ List.mem_cons_self a xs') hx
    | cons b ys' =>
      simp only [List.cons_append, List.cons.injEq] at h
      have hx' : '/' ∉ xs' := fun hm => hx (List.mem_cons_of_mem a hm)
      have hy' : '/' ∉ ys' := fun hm => hy (List.mem_cons_of_mem b hm)
      have := ih hx' hy' h.2
      exact ⟨by rw [h.1, this.1], this.2⟩

theorem privateId_data (p u c : String) :
    (generateSessionId p u c false none).data
      = p.data ++ '/' :: ("private".data ++ '/' :: (u.data ++ '/' :: c.data)) := by
  show (p ++ "/private/" ++ u ++ "/" ++ c).data = _
  simp only [String.data_append]
  simp

theorem groupId_data (p u c g : String) :
    (generateSessionId p u c true (some g)).data
      = p.data ++ '/' :: ("group".data ++ '/' :: (g.data ++ '/' :: u.data)) := by
  show (p ++ "/group/" ++ g ++ "/" ++ u).data = _
  simp only [String.data_append]
  simp

/-- C4 counterexample to the claim as stated: two inputs that differ in
the user id (and in the conversation id) produce the *same* session id
`p/private/a/b/c`, because the components are joined with `/` without
escaping.  So "inputs differing in user always yield distinct ids" is
false in general. -/
theorem session_id_injectivity_counterexample :
    generateSessionId "p" "a" "b/c" false none
        = generateSessionId "p" "a/b" "c" false none ∧
    ("a" : String) ≠ "a/b" := by
  constructor
  · decide
  · decide

/-- C4 (amended): the derived id is exactly `platform/private/u/c` for
private events and `platform/group/g/u` for group events (equal inputs
trivially give equal ids, the derivation being a pure function), and ids
are collision-free — across private ids, across group ids, and between
the two scopes — *provided* the platform, user and group components
contain no `/`; with slash-containing components distinct inputs can
collide. -/
theorem session_id_determinism (p u c g p' u' c' g' : String) :
    generateSessionId p u c false none = p ++ "/private/" ++ u ++ "/" ++ c ∧
    generateSessionId p u c true (some g) = p ++ "/group/" ++ g ++ "/" ++ u ∧
    (slashFree p → slashFree u → slashFree p' → slashFree u' →
      generateSessionId p u c false none = generateSessionId p' u' c' false none →
      p = p' ∧ u = u' ∧ c = c') ∧
    (slashFree p → slashFree g → slashFree p' → slashFree g' →
      generateSessionId p u c true (some g)
          = generateSessionId p' u' c' true (some g') →
      p = p' ∧ g = g' ∧ u = u') ∧
    (slashFree p → slashFree p' →
      generateSessionId p u c false none
        ≠ generateSessionId p' u' c' true (some g')) := by
  refine ⟨rfl, rfl, ?_, ?_, ?_⟩
  · intro hp hu hp' hu' h
    have hd := congrArg String.data h
    rw [privateId_data, privateId_data] at hd
    have h1 := noSlash_append_cons_inj hp hp' hd
    have h2 := noSlash_append_cons_inj (by decide) (by decide) h1.2
    have h3 := noSlash_append_cons_inj hu hu' h2.2
    exact ⟨String.ext h1.1, String.ext h3.1, String.ext h3.2⟩
  · intro hp hg hp' hg' h
    have hd := congrArg String.data h
    rw [groupId_data, groupId_data] at hd
    have h1 := noSlash_append_cons_inj hp hp' hd
    have h2 := noSlash_append_cons_inj (by decide) (by decide) h1.2
    have h3 := noSlash_append_cons_inj hg hg' h2.2
    exact ⟨String.ext h1.1, String.ext h3.1, String.ext h3.2⟩
  · intro hp hp' h
    have hd := congrArg String.data h
    rw [privateId_data, groupId_data] at hd
    have h1 := noSlash_append_cons_inj hp hp' hd
    have h2 := noSlash_append_cons_inj (by decide) (by decide) h1.2
    exact absurd h2.1 (by decide)

/-- C4 witness: concrete slash-free identifiers; the private/group
formats are as claimed, the injectivity implications are dischargeable,
and the private and group ids of the same identifiers differ. -/
theorem session_id_determinism_witness :
    generateSessionId "qq" "alice" "c1" false none = "qq/private/alice/c1" ∧
    ("qq" : String) = "qq" ∧
    generateSessionId "qq" "alice" "c1" false none
      ≠ generateSessionId "qq" "alice" "c1" true (some "room") := by
  have h := session_id_determinism "qq" "alice" "c1" "room" "qq" "alice" "c1" "room"
  have hinj := h.2.2.1 (by decide) (by decide) (by decide) (by decide) rfl
  exact ⟨h.1.trans (by decide), hinj.1, h.2.2.2.2 (by decide) (by decide)⟩

/-! ## C5: export / import round trip -/

/-- Serialization then deserialization is the identity on a message whose
optional fields are not "present but falsy" (`name`/`tool_call_id` not
`Some ""`, `tool_calls` not `Some []`); Python's truthiness test in
`to_dict` collapses those to absent. -/
theorem fromDict_toDict (m : ChatMessage) (h1 : m.name ≠ some "")
    (h2 : m.tool_calls ≠ some []) (h3 : m.tool_call_id ≠ some "") :
    fromDict (toDict m) = m := by
  obtain ⟨r, ct, nm, tc, tci⟩ := m
  simp only [fromDict, toDict, ChatMessage.mk.injEq, true_and]
  refine ⟨?_, ?_, ?_⟩
  · rcases nm with _ | sx
    · simp
    · rcases eq_or_ne sx "" with rfl | hs
      · exact absurd rfl h1
      · simp [hs]
  · rcases tc with _ | l
    · simp
    · rcases eq_or_ne l [] with rfl | hl
      · exact absurd rfl h2
      · simp [hl]
  · rcases tci with _ | sx
    · simp
    · rcases eq_or_ne sx "" with rfl | hs
      · exact absurd rfl h3
      · simp [hs]

/-- C5 (amended): importing an exported session reproduces the message
sequence and both timestamps exactly — provided the session fits the
default cap (always true for sessions built through `add_message`) and no
message carries a present-but-falsy optional field — but the model
binding is NOT restored: the imported session's `model_config` is
`None` regardless of the exported `model` field. -/
theorem session_roundtrip (now : Nat) (s : ChatSession)
    (hid : s.session_id ≠ "") (hcap : s.max_history = 100)
    (hlen : s.messages.length ≤ 100)
    (hnorm : ∀ m ∈ s.messages,
      m.name ≠ some "" ∧ m.tool_calls ≠ some [] ∧ m.tool_call_id ≠ some "") :
    importSession now (exportSession s) = some { s with model_config := none } := by
  have hbeq : (s.session_id == "") = false := by
    simpa using hid
  obtain ⟨sid, msgs, mc, mh, ca, ua⟩ := s
  simp only at hid hlen hnorm
  simp only [importSession, exportSession, hbeq, Bool.false_eq_true, if_false]
  have hmap :
      List.foldl (fun t m => addMessage now (fromDict m) t)
          { session_id := sid, created_at := now, updated_at := now }
          (msgs.map toDict)
        = List.foldl (fun t m => addMessage now m t)
            { session_id := sid, created_at := now, updated_at := now } msgs := by
    rw [List.foldl_map]
    refine List.foldl_ext _ _ _ ?_
    intro t m hm
    rw [fromDict_toDict m (hnorm m hm).1 (hnorm m hm).2.1 (hnorm m hm).2.2]
  rw [hmap]
  have hfold := foldl_addMessage_no_trunc now msgs
    { session_id := sid, created_at := now, updated_at := now } (by simpa using hlen)
  rcases hfold with ⟨hmsgs, hmax, hsid, hmc, hca⟩
  have hcap' : mh = 100 := by simpa using hcap
  ext1
  simp [hmsgs, hmax, hsid, hmc, hcap']

/-- A session bound to a model, exercised by the C5 counterexample. -/
def boundSession : ChatSession :=
  { session_id := "s"
    messages := [systemMsg "p", userMsg "hi"]
    model_config := some { model_name := "deepseek-chat" }
    created_at := 5
    updated_at := 9 }

/-- C5 counterexample to the claim as stated: exporting a session bound
to `deepseek-chat` and importing the snapshot yields a session whose
model binding is `None` — `import_session` builds a fresh `ChatSession`
and never reads the snapshot's `model` field — so the bound model is not
identical to the original's. -/
theorem roundtrip_model_counterexample :
    (importSession 0 (exportSession boundSession)).map ChatSession.model_config
      ≠ some boundSession.model_config := by
  decide

/-- A model-free session satisfying the amended round-trip hypotheses. -/
def plainSession : ChatSession :=
  { session_id := "w"
    messages := [systemMsg "p", userMsg "hi"]
    created_at := 3
    updated_at := 4 }

/-- C5 witness: the amended round trip at a concrete session. -/
theorem session_roundtrip_witness :
    importSession 0 (exportSession plainSession)
      = some { plainSession with model_config := none } :=
  session_roundtrip 0 plainSession (by decide) (by decide) (by decide) (by decide)

/-! ## C6: command alias matching -/

/-- C6 counterexample to the claim as stated: on `/help extra args` the
router invokes the handler with the *whole* message string, not with the
stripped argument text `extra args` (handlers such as `help_command`
re-strip the prefix themselves). -/
theorem command_args_counterexample :
    findAndExecute [helpCommand] "/help extra args" ≠ some ("help", "extra args") := by
  decide

/-- C6 (amended): with the `help` command registered, `/help` matches it;
`/helper` matches no command (a match must be followed by whitespace or
end-of-string); and `/help extra args` matches it, the handler being
invoked with the full message `/help extra args` (from which it can
recover `extra args`), not with the stripped argument text. -/
theorem command_alias_matching :
    findAndExecute [helpCommand] "/help" = some ("help", "/help") ∧
    findAndExecute [helpCommand] "/helper" = none ∧
    findAndExecute [helpCommand] "/help extra args"
        = some ("help", "/help extra args") := by
  refine ⟨by decide, by decide, by decide⟩

/-! ## C7: tool execution error containment -/

/-- C7 counterexample to the claim as stated: `Tools.execute_tool` on an
unregistered name does not return a `success=false` result carrying the
message "unregistered tool" — it raises `ValueError("工具 'foo' 未注册")`
(here the `Except.error` branch). -/
theorem execute_unregistered_counterexample :
    (executeTool tool_config [] (fun _ => .success "ok") "foo" []).result
      = .error "工具 'foo' 未注册" := by
  decide

/-- C7 (amended): the registry's `execute_tool` raises a `ValueError`
mentioning the unregistered name (rather than returning a failure
result), and re-raises handler exceptions; containment lives one level
up: the engine's `AIChat._execute_tool` catches every exception from
`execute_tool` and converts it into an `{"error": ...}` result with the
ledger untouched, so one failing tool never aborts the orchestration
loop. -/
theorem tool_execute_error_containment (cfg : ToolConfig)
    (registry : ToolRegistry) (handlers : String → HandlerOutcome)
    (name : String) (led : Ledger) :
    (alistGet registry name = none →
      executeTool cfg registry handlers name led
        = { result := .error ("工具 '" ++ name ++ "' 未注册")
            ledger := led, invoked := false }) ∧
    ∀ e : String,
      (executeTool cfg registry handlers name led).result = .error e →
      aiExecuteTool cfg registry handlers name led
        = (.errorDict e, (executeTool cfg registry handlers name led).ledger) := by
  constructor
  · intro h
    unfold executeTool
    rw [h]
  · intro e he
    simp [aiExecuteTool, he]

/-- C7 witness: an unregistered call raises, and a raising handler's
exception is converted by the engine wrapper into an error result. -/
theorem tool_execute_error_containment_witness :
    executeTool tool_config [] (fun _ => .raise "boom") "foo" []
        = { result := .error ("工具 '" ++ "foo" ++ "' 未注册")
            ledger := [], invoked := false } ∧
    aiExecuteTool tool_config [("t", none)] (fun _ => .raise "boom") "t" []
        = (.errorDict "boom",
           (executeTool tool_config [("t", none)] (fun _ => .raise "boom") "t" []).ledger) := by
  constructor
  · exact (tool_execute_error_containment tool_config []
      (fun _ => .raise "boom") "foo" []).1 (by decide)
  · exact (tool_execute_error_containment tool_config [("t", none)]
      (fun _ => .raise "boom") "t" []).2 "boom" (by decide)

/-! ## C8: chat failure containment -/

/-- C8 (confirmed): a `chat` turn always hands its caller a reply string
(the result record's `response` field is total); on a transport-level
failure the reply is the fixed apology, `success` is false, and the
session holds exactly the already-appended user message — no partial
assistant or tool message is added for the failed call; on a successful
completion the assistant message is appended and its content returned. -/
theorem chat_failure_containment (now : Nat) (s : ChatSession)
    (userText : String) :
    ((chatTurn now s userText none).2.response = apologyMessage ∧
     (chatTurn now s userText none).2.success = false ∧
     (chatTurn now s userText none).1
        = addMessage now { role := "user", content := userText } s) ∧
    ∀ content : String,
      (chatTurn now s userText (some content)).2.response = content ∧
      (chatTurn now s userText (some content)).1
        = addMessage now { role := "assistant", content := content }
            (addMessage now { role := "user", content := userText } s) :=
  ⟨⟨rfl, rfl, rfl⟩, fun _ => ⟨rfl, rfl⟩⟩

/-! ## C9: unconfigured quota provider means unlimited -/

/-- C9 (confirmed): when a quota rule names a provider tag absent from
`tool_config`, `check_quota` returns allowed for every ledger state
(usage is irrelevant), and a tool gated by such a rule always reaches its
handler — an unconfigured provider means unlimited quota, not a blocked
tool. -/
theorem quota_unconfigured_allowed (apiName uk lk t : String) (cost : Nat)
    (led : Ledger) (q : QuotaRule) (handlers : String → HandlerOutcome)
    (h : alistGet tool_config apiName = none) (hq : q.api = apiName) :
    check_quota tool_config led apiName uk lk cost = true ∧
    (executeTool tool_config [(t, some q)] handlers t led).invoked = true := by
  have hcheck : check_quota tool_config led apiName uk lk cost = true := by
    unfold check_quota
    rw [h]
  refine ⟨hcheck, ?_⟩
  have hcheck2 :
      check_quota tool_config led q.api q.usage_key (q.limit_key.getD "") q.cost
        = true := by
    unfold check_quota
    rw [hq, h]
  unfold executeTool
  have hlook : alistGet [(t, some q)] t = some (some q) := by
    simp [alistGet]
  rw [hlook]
  simp only [hcheck2, Bool.not_true, Bool.and_false]
  cases handlers t <;> simp

/-- C9 witness: the provider tag `brave` is not configured in
`tool_config`, so its quota check passes and a `brave`-gated tool runs. -/
theorem quota_unconfigured_allowed_witness :
    check_quota tool_config [] "brave" "usage" "rpmonth" 1 = true ∧
    (executeTool tool_config
        [("web", some { api := "brave", usage_key := "usage"
                        limit_key := some "rpmonth", cost := 1 })]
        (fun _ => .success "x") "web" []).invoked = true :=
  quota_unconfigured_allowed "brave" "usage" "rpmonth" "web" 1 []
    { api := "brave", usage_key := "usage", limit_key := some "rpmonth", cost := 1 }
    (fun _ => .success "x") (by decide) rfl

/-! ## C10: create_session silently replaces -/

theorem SessionStore.get_set (store : SessionStore) (sid : String)
    (s : ChatSession) :
    (store.set sid s).get sid = some s := by
  induction store with
  | nil => simp [SessionStore.set, SessionStore.get]
  | cons p rest ih =>
    obtain ⟨k, v⟩ := p
    cases hk : k == sid with
    | true => simp [SessionStore.set, SessionStore.get, hk]
    | false =>
      simp only [SessionStore.set, hk, Bool.false_eq_true, if_false]
      simp only [SessionStore.get, List.find?, hk]
      exact ih

/-- C10 (confirmed): calling `create_session` on an id that already
exists silently replaces the stored session (only a warning is logged):
afterwards the store holds a fresh session containing exactly one
message, a system message with the newly built prompt (the caller's
prompt when non-empty, else the `PromptManager`-built one), with the
previous history discarded. -/
theorem create_session_replaces (store : SessionStore) (sid : String)
    (s : ChatSession) (system_prompt builtPrompt : String)
    (model : Option ModelConfig) (now : Nat)
    (_existing : store.get sid = some s) :
    (createSession store sid system_prompt builtPrompt model now).get sid
      = some { session_id := sid
               messages := [{ role := "system"
                              content := if system_prompt == "" then builtPrompt
                                         else system_prompt }]
               model_config := model
               max_history := 100
               created_at := now
               updated_at := now } := by
  unfold createSession
  rw [SessionStore.get_set]
  unfold addMessage
  simp

/-- C10 witness: a store already holding a session under `x` ends up,
after `create_session`, with a one-message session holding the built
system prompt. -/
theorem create_session_replaces_witness :
    (createSession [("x", { session_id := "x", messages := [userMsg "old"] })]
        "x" "" "PROMPT" none 7).get "x"
      = some { session_id := "x"
               messages := [{ role := "system", content := "PROMPT" }]
               model_config := none
               max_history := 100
               created_at := 7
               updated_at := 7 } := by
  have h := create_session_replaces
    [("x", { session_id := "x", messages := [userMsg "old"] })] "x"
    { session_id := "x", messages := [userMsg "old"] } "" "PROMPT" none 7
    (by decide)
  simpa using h

end TomatOS
